import Mathlib

/-!
Shallow embedding of the webhook dispatcher in src/webhooks.py (the Flask
handler function named index), together with theorems checking the
specification's claims against it.

External collaborators of the handler (the json library, hmac, the GitHub
meta endpoint, the filesystem, mkstemp and child-process execution) are
modelled as an explicit environment of pure functions; the handler itself
is translated line by line into a pure function from (config, environment,
request) to a response together with a trace of observable effects
(logging, temp-file writes and removals, script invocations).
-/

namespace Webhooks

/-- JSON values, as produced by the external json library (json.loads). -/
inductive Json where
  | null
  | bool (b : Bool)
  | num (n : Int)
  | str (s : String)
  | arr (elems : List Json)
  | obj (entries : List (String × Json))

/-- Python dict subscript payload[key] on a JSON object: none models the
KeyError (missing key) or TypeError (not a dict) that the handler's
try/except turns into a 400. -/
def Json.lookup : Json → String → Option Json
  | .obj entries, key => (entries.find? (fun p => p.1 == key)).map (fun p => p.2)
  | _, _ => none

/-- Some value only when the JSON value is a string; none models the
AttributeError raised by calling a str method on a non-string. -/
def Json.asString : Json → Option String
  | .str s => some s
  | _ => none

mutual
/-- Python str() rendering of a JSON value, used when a payload field is
interpolated into a format string. For strings it is the string itself
(the only case the handler's hook-name patterns meaningfully use);
container renderings are approximated. -/
def pyStr : Json → String
  | .null => "None"
  | .bool true => "True"
  | .bool false => "False"
  | .num n => toString n
  | .str s => s
  | .arr xs => "[" ++ pyStrList xs ++ "]"
  | .obj kvs => "\x7b" ++ pyStrObj kvs ++ "\x7d"

def pyStrList : List Json → String
  | [] => ""
  | [x] => pyStr x
  | x :: xs => pyStr x ++ ", " ++ pyStrList xs

def pyStrObj : List (String × Json) → String
  | [] => ""
  | [(k, v)] => k ++ ": " ++ pyStr v
  | (k, v) :: kvs => k ++ ": " ++ pyStr v ++ ", " ++ pyStrObj kvs
end

/-- Minimal JSON string escaping, standing in for the escaping json.dumps
performs on string values. -/
def escapeJsonString (s : String) : String :=
  String.join (s.toList.map fun c =>
    if c = '\\' then "\\\\"
    else if c = '"' then "\\\""
    else if c = '\n' then "\\n"
    else String.singleton c)

mutual
/-- Serialization json.dumps(v) with default options (insertion order kept,
Python 2 default separators). -/
def dumpsJ : Json → String
  | .null => "null"
  | .bool true => "true"
  | .bool false => "false"
  | .num n => toString n
  | .str s => "\"" ++ escapeJsonString s ++ "\""
  | .arr xs => "[" ++ dumpsList xs ++ "]"
  | .obj kvs => "\x7b" ++ dumpsObj kvs ++ "\x7d"

def dumpsList : List Json → String
  | [] => ""
  | [x] => dumpsJ x
  | x :: xs => dumpsJ x ++ ", " ++ dumpsList xs

def dumpsObj : List (String × Json) → String
  | [] => ""
  | [(k, v)] => "\"" ++ escapeJsonString k ++ "\": " ++ dumpsJ v
  | (k, v) :: kvs => "\"" ++ escapeJsonString k ++ "\": " ++ dumpsJ v ++ ", " ++ dumpsObj kvs
end

/-- Lexicographic strict comparison of character lists by code point: the
order in which sort_keys sorts JSON object keys. -/
def charListLt : List Char → List Char → Bool
  | [], [] => false
  | [], _ :: _ => true
  | _ :: _, [] => false
  | c :: cs, d :: ds =>
    if c.val.toNat < d.val.toNat then true
    else if d.val.toNat < c.val.toNat then false
    else charListLt cs ds

/-- Strict string comparison by code point. -/
def strLt (a b : String) : Bool :=
  charListLt a.toList b.toList

/-- Insert an entry into a key-sorted association list (insertion sort step). -/
def insertSortedEntry (p : String × Json) : List (String × Json) → List (String × Json)
  | [] => [p]
  | q :: rest => if strLt q.1 p.1 then q :: insertSortedEntry p rest else p :: q :: rest

/-- Sort an association list by key. -/
def sortEntries (l : List (String × Json)) : List (String × Json) :=
  l.foldr insertSortedEntry []

mutual
/-- Recursively sort every object's entries by key: the effect of the
sort_keys=True option of json.dumps. -/
def sortKeysJ : Json → Json
  | .null => .null
  | .bool b => .bool b
  | .num n => .num n
  | .str s => .str s
  | .arr xs => .arr (sortKeysList xs)
  | .obj kvs => .obj (sortEntries (sortKeysEntries kvs))

def sortKeysList : List Json → List Json
  | [] => []
  | x :: xs => sortKeysJ x :: sortKeysList xs

def sortKeysEntries : List (String × Json) → List (String × Json)
  | [] => []
  | (k, v) :: kvs => (k, sortKeysJ v) :: sortKeysEntries kvs
end

/-- Serialization json.dumps(v, sort_keys=True). -/
def dumpsSortedJ (v : Json) : String :=
  dumpsJ (sortKeysJ v)

/-- An IPv4 CIDR network, as built by ip_network(valid_ip) from one entry of
the fetched allowlist. netAddr is the network address as a 32-bit number,
prefixLen the mask length. -/
structure Network where
  netAddr : Nat
  prefixLen : Nat

/-- Membership src_ip in ip_network(valid_ip): the address and the network
agree on the first prefixLen bits. -/
def Network.containsIp (n : Network) (ip : Nat) : Bool :=
  ip / 2 ^ (32 - n.prefixLen) == n.netAddr / 2 ^ (32 - n.prefixLen)

/-- The for/else loop over the whitelist: breaks (allows) as soon as one
network contains the source address, aborts 403 if none does. -/
def ipAllowed (whitelist : List Network) (ip : Nat) : Bool :=
  whitelist.any (fun n => n.containsIp ip)

/-- Result of one child process run: exit code plus captured streams
(proc.returncode and proc.communicate()). -/
structure ScriptResult where
  returncode : Int
  stdout : String
  stderr : String

/-- The per-request configuration values the handler reads from
application.config, already defaulted as in the source
(GITHUB_IPS_ONLY default True, ENFORCE_SECRET default empty,
RETURN_SCRIPTS_INFO default False). -/
structure Config where
  githubIpsOnly : Bool
  enforceSecret : String
  returnScriptsInfo : Bool

/-- An inbound HTTP request as the handler sees it: method, the three
headers it reads, the raw body bytes (request.data) and the parsed remote
address (ip_address(request.remote_addr)) as a 32-bit number. -/
structure Request where
  method : String
  remoteAddr : Nat
  xHubSignature : Option String
  xGitHubEvent : Option String
  xGitlabEvent : Option String
  data : String

/-- The external world the handler calls into, as pure functions:
the fetched GitHub meta allowlist, json.loads (none = raise),
the HMAC-SHA1 hex digest function, the filesystem predicates isfile and
access(-, X_OK), the name mkstemp hands out for this request, and the
child-process runner (script path, temp file path, event argument). -/
structure Env where
  whitelist : List Network
  loads : String → Option Json
  hmacSha1Hex : String → String → String
  isfile : String → Bool
  accessXOK : String → Bool
  mkstemp : String
  run : String → String → String → ScriptResult

/-- The outcome of the handler: a 200 response with a body, an abort(status),
or an uncaught Python exception escaping the handler. -/
inductive Response where
  | ok (body : String)
  | abort (status : Nat)
  | crash (msg : String)
deriving DecidableEq

/-- Observable effects of one request, in order: log lines, the temp payload
file write, each script invocation with its argument vector, the temp file
removal. -/
inductive Event where
  | logInfo (msg : String)
  | logWarning (msg : String)
  | logError (msg : String)
  | logException (msg : String)
  | writeTemp (path content : String)
  | runScript (script : String) (args : List String)
  | removeTemp (path : String)
deriving DecidableEq

/-- The derived meta dict: repository name, branch, event. -/
structure Meta where
  name : String
  branch : String
  event : String
deriving DecidableEq

/-- Python str.split(sep) for a one-character separator, over the character
list: splits at every occurrence and keeps empty pieces, exactly as
Python's split with an explicit separator does. -/
def pySplitList (sep : Char) : List Char → List (List Char)
  | [] => [[]]
  | c :: cs =>
    match pySplitList sep cs with
    | [] => [[]]
    | r :: rs => if c = sep then [] :: r :: rs else (c :: r) :: rs

/-- Python str.split(sep) on a string, for a one-character separator. -/
def pySplit (s : String) (sep : Char) : List String :=
  (pySplitList sep s.toList).map (fun cs => String.mk cs)

/-- os.path.join of the hooks directory with a candidate file name. -/
def joinPath (dir file : String) : String :=
  if file.toList.head? = some '/' then file else dir ++ "/" ++ file

/-- The hooks directory sibling to the application
(join(normpath(abspath(dirname(file))), 'hooks')), with the application
directory abstracted away. -/
def hooksDir : String := "hooks"

/-- os.path.basename: the part after the last slash. -/
def basename (p : String) : String :=
  (pySplit p '/').getLastD ""

/-- Event classification from headers: X-GitHub-Event if present, else
X-Gitlab-Event defaulted to the empty string. -/
def classifyEvent (req : Request) : String :=
  match req.xGitHubEvent with
  | some e => e
  | none => req.xGitlabEvent.getD ""

/-- hmac.compare_digest on two hex digest strings: a constant-time
comparison whose value is plain string equality. -/
def compareDigest (a b : String) : Bool :=
  a == b

/-- The signature-enforcement block: some response means the handler stops
there (an abort or an uncaught exception), none means validation passed.
Mirrors lines 95-106 of the source: split the X-Hub-Signature header on
the equals sign into algorithm and digest (a missing header raises
AttributeError, a part count other than two raises ValueError), abort 501
unless the algorithm is sha1, then abort 403 unless the HMAC-SHA1 hex
digest of the raw body under the secret equals the provided digest. -/
def checkSignature (cfg : Config) (env : Env) (req : Request) : Option Response :=
  if cfg.enforceSecret ≠ "" then
    match req.xHubSignature with
    | none => some (.crash "AttributeError: NoneType has no attribute split")
    | some header =>
      match pySplit header '=' with
      | [shaName, signature] =>
        if shaName ≠ "sha1" then some (.abort 501)
        else
          let mac := env.hmacSha1Hex cfg.enforceSecret req.data
          if !(compareDigest mac signature) then some (.abort 403)
          else none
      | _ => some (.crash "ValueError: unpacking split result")
  else none

/-- The meta dict construction inside the try block (lines 117-123): any
none models an exception caught by the except clause (missing key, a
non-string ref, or a ref with fewer than three slash-separated segments).
The event entry is the header event when non-empty, else the payload's
object_kind value (Python's or on a string). -/
def getMeta (payload : Json) (event : String) : Option Meta := do
  let repo ← payload.lookup "repository"
  let nameJ ← repo.lookup "name"
  let refJ ← payload.lookup "ref"
  let refStr ← refJ.asString
  let branch ← (pySplit refStr '/')[2]?
  let eventStr ← if event = "" then (payload.lookup "object_kind").map pyStr else some event
  pure ⟨pyStr nameJ, branch, eventStr⟩

/-- The four candidate hook paths, in source order (lines 129-134). -/
def candidateScripts (hooks : String) (m : Meta) : List String :=
  [ joinPath hooks (m.event ++ "-" ++ m.name ++ "-" ++ m.branch),
    joinPath hooks (m.event ++ "-" ++ m.name),
    joinPath hooks m.event,
    joinPath hooks "all" ]

/-- Python dict assignment ran[key] = value: replace in place if the key is
present, append otherwise. -/
def dictInsert (d : List (String × ScriptResult)) (k : String) (v : ScriptResult) :
    List (String × ScriptResult) :=
  match d with
  | [] => [(k, v)]
  | (k', v') :: rest => if k' == k then (k, v) :: rest else (k', v') :: dictInsert rest k v

/-- The script loop (lines 148-167): run each script in order with the temp
file path and the event string as arguments, record its result in the ran
dict keyed by basename, and log an error on a non-zero exit code. Returns
the ran dict and the trace of the loop. -/
def runScriptsAux (env : Env) (tmpfile eventArg : String)
    (ran : List (String × ScriptResult)) :
    List String → List (String × ScriptResult) × List Event
  | [] => (ran, [])
  | s :: rest =>
    let r := env.run s tmpfile eventArg
    let ran2 := dictInsert ran (basename s) r
    let errEvs :=
      if r.returncode ≠ 0
      then [Event.logError (s ++ " : " ++ toString r.returncode ++ " \n" ++ r.stderr)]
      else []
    let (ranF, evsRest) := runScriptsAux env tmpfile eventArg ran2 rest
    (ranF, Event.runScript s [tmpfile, eventArg] :: errEvs ++ evsRest)

/-- The ran dict serialized as a JSON object, value per script:
returncode, stdout, stderr. -/
def ranToJson (ran : List (String × ScriptResult)) : Json :=
  .obj (ran.map fun p =>
    (p.1, .obj [("returncode", .num p.2.returncode),
                ("stdout", .str p.2.stdout),
                ("stderr", .str p.2.stderr)]))

/-- The pipeline from event classification onward (lines 108-178): ping
logging, payload parse and meta extraction (400 on failure), candidate
resolution and permission filtering, empty 200 when nothing matches,
otherwise temp file write, sequential script execution, temp file removal,
and the response body governed by RETURN_SCRIPTS_INFO. -/
def processPayload (cfg : Config) (env : Env) (req : Request) : Response × List Event :=
  let event := classifyEvent req
  let pingEvs := if event = "ping" then [Event.logInfo "just a ping"] else []
  match env.loads req.data with
  | none => (.abort 400, pingEvs ++ [Event.logException "invalid payload"])
  | some payload =>
    match getMeta payload event with
    | none => (.abort 400, pingEvs ++ [Event.logException "invalid payload"])
    | some meta =>
      let candidates := candidateScripts hooksDir meta
      let scripts := candidates.filter (fun s => env.isfile s && env.accessXOK s)
      if scripts.isEmpty then
        (.ok "", pingEvs ++ [Event.logWarning ("nothing found for " ++ candidates.headD "")])
      else
        let tmpfile := env.mkstemp
        let ranEvs := runScriptsAux env tmpfile event [] scripts
        let evs := pingEvs ++ Event.writeTemp tmpfile (dumpsJ payload) :: ranEvs.2
                     ++ [Event.removeTemp tmpfile]
        if !cfg.returnScriptsInfo then (.ok "", evs)
        else
          let output := dumpsSortedJ (ranToJson ranEvs.1)
          (.ok output, evs ++ [Event.logInfo output])

/-- Validation past the IP check: the signature block, then the rest of the
pipeline. -/
def signatureStage (cfg : Config) (env : Env) (req : Request) : Response × List Event :=
  match checkSignature cfg env req with
  | some r => (r, [])
  | none => processPayload cfg env req

/-- The whole handler (the index function): reject non-POST with 501, then
the GitHub-IPs-only allowlist check (403 when the remote address is inside
none of the fetched networks), then signature enforcement and the payload
pipeline. -/
def index (cfg : Config) (env : Env) (req : Request) : Response × List Event :=
  if req.method ≠ "POST" then
    (.abort 501, [Event.logError "Someone is performing GET over /"])
  else if cfg.githubIpsOnly && !(ipAllowed env.whitelist req.remoteAddr) then
    (.abort 403, [])
  else
    signatureStage cfg env req

/-! Observations on the effect trace. -/

/-- Whether an event is the temp payload file write. -/
def isWriteTemp : Event → Bool
  | .writeTemp _ _ => true
  | _ => false

/-- Whether an event is the temp payload file removal. -/
def isRemoveTemp : Event → Bool
  | .removeTemp _ => true
  | _ => false

/-- Whether an event is a script invocation. -/
def isRunScript : Event → Bool
  | .runScript _ _ => true
  | _ => false

/-- The script invocations in a trace: script path with its argument
vector, in execution order. -/
def runEventsOf (evs : List Event) : List (String × List String) :=
  evs.filterMap fun e =>
    match e with
    | .runScript s args => some (s, args)
    | _ => none

/-- The scripts executed in a trace, in execution order. -/
def scriptsRun (evs : List Event) : List String :=
  (runEventsOf evs).map Prod.fst

@[simp] theorem isWriteTemp_logInfo (m : String) : isWriteTemp (.logInfo m) = false := rfl
@[simp] theorem isWriteTemp_logWarning (m : String) : isWriteTemp (.logWarning m) = false := rfl
@[simp] theorem isWriteTemp_logError (m : String) : isWriteTemp (.logError m) = false := rfl
@[simp] theorem isWriteTemp_logException (m : String) : isWriteTemp (.logException m) = false := rfl
@[simp] theorem isWriteTemp_writeTemp (p c : String) : isWriteTemp (.writeTemp p c) = true := rfl
@[simp] theorem isWriteTemp_runScript (s : String) (a : List String) :
    isWriteTemp (.runScript s a) = false := rfl
@[simp] theorem isWriteTemp_removeTemp (p : String) : isWriteTemp (.removeTemp p) = false := rfl

@[simp] theorem isRemoveTemp_logInfo (m : String) : isRemoveTemp (.logInfo m) = false := rfl
@[simp] theorem isRemoveTemp_logWarning (m : String) : isRemoveTemp (.logWarning m) = false := rfl
@[simp] theorem isRemoveTemp_logError (m : String) : isRemoveTemp (.logError m) = false := rfl
@[simp] theorem isRemoveTemp_logException (m : String) : isRemoveTemp (.logException m) = false := rfl
@[simp] theorem isRemoveTemp_writeTemp (p c : String) : isRemoveTemp (.writeTemp p c) = false := rfl
@[simp] theorem isRemoveTemp_runScript (s : String) (a : List String) :
    isRemoveTemp (.runScript s a) = false := rfl
@[simp] theorem isRemoveTemp_removeTemp (p : String) : isRemoveTemp (.removeTemp p) = true := rfl

@[simp] theorem isRunScript_logInfo (m : String) : isRunScript (.logInfo m) = false := rfl
@[simp] theorem isRunScript_logWarning (m : String) : isRunScript (.logWarning m) = false := rfl
@[simp] theorem isRunScript_logError (m : String) : isRunScript (.logError m) = false := rfl
@[simp] theorem isRunScript_logException (m : String) : isRunScript (.logException m) = false := rfl
@[simp] theorem isRunScript_writeTemp (p c : String) : isRunScript (.writeTemp p c) = false := rfl
@[simp] theorem isRunScript_runScript (s : String) (a : List String) :
    isRunScript (.runScript s a) = true := rfl
@[simp] theorem isRunScript_removeTemp (p : String) : isRunScript (.removeTemp p) = false := rfl

@[simp] theorem runEventsOf_nil : runEventsOf [] = [] := rfl
@[simp] theorem runEventsOf_cons_logInfo (m : String) (evs : List Event) :
    runEventsOf (.logInfo m :: evs) = runEventsOf evs := rfl
@[simp] theorem runEventsOf_cons_logWarning (m : String) (evs : List Event) :
    runEventsOf (.logWarning m :: evs) = runEventsOf evs := rfl
@[simp] theorem runEventsOf_cons_logError (m : String) (evs : List Event) :
    runEventsOf (.logError m :: evs) = runEventsOf evs := rfl
@[simp] theorem runEventsOf_cons_logException (m : String) (evs : List Event) :
    runEventsOf (.logException m :: evs) = runEventsOf evs := rfl
@[simp] theorem runEventsOf_cons_writeTemp (p c : String) (evs : List Event) :
    runEventsOf (.writeTemp p c :: evs) = runEventsOf evs := rfl
@[simp] theorem runEventsOf_cons_runScript (s : String) (a : List String) (evs : List Event) :
    runEventsOf (.runScript s a :: evs) = (s, a) :: runEventsOf evs := rfl
@[simp] theorem runEventsOf_cons_removeTemp (p : String) (evs : List Event) :
    runEventsOf (.removeTemp p :: evs) = runEventsOf evs := rfl
@[simp] theorem runEventsOf_append (l1 l2 : List Event) :
    runEventsOf (l1 ++ l2) = runEventsOf l1 ++ runEventsOf l2 :=
  List.filterMap_append l1 l2 _

/-! Lemmas about the script loop. -/

theorem runScriptsAux_snd_cons (env : Env) (t e x : String) (rest : List String)
    (acc : List (String × ScriptResult)) :
    (runScriptsAux env t e acc (x :: rest)).2 =
      Event.runScript x [t, e] ::
        ((if (env.run x t e).returncode ≠ 0
          then [Event.logError (x ++ " : " ++ toString (env.run x t e).returncode
                 ++ " \n" ++ (env.run x t e).stderr)]
          else [])
         ++ (runScriptsAux env t e (dictInsert acc (basename x) (env.run x t e)) rest).2) :=
  rfl

theorem runScriptsAux_fst_cons (env : Env) (t e x : String) (rest : List String)
    (acc : List (String × ScriptResult)) :
    (runScriptsAux env t e acc (x :: rest)).1 =
      (runScriptsAux env t e (dictInsert acc (basename x) (env.run x t e)) rest).1 :=
  rfl

theorem runScriptsAux_snd_runEvents (env : Env) (t e : String) :
    ∀ (ss : List String) (acc : List (String × ScriptResult)),
      runEventsOf (runScriptsAux env t e acc ss).2 = ss.map (fun s => (s, [t, e])) := by
  intro ss
  induction ss with
  | nil => intro acc; simp [runScriptsAux]
  | cons s rest ih =>
    intro acc
    have hrest := ih (dictInsert acc (basename s) (env.run s t e))
    by_cases hrc : (env.run s t e).returncode ≠ 0 <;>
      simp [runScriptsAux, hrc, hrest]

theorem map_fst_runEvents (env : Env) (t e : String) (ss : List String)
    (acc : List (String × ScriptResult)) :
    (runEventsOf (runScriptsAux env t e acc ss).2).map Prod.fst = ss := by
  rw [runScriptsAux_snd_runEvents]
  induction ss with
  | nil => rfl
  | cons x xs ih => simp_all

theorem runScriptsAux_snd_no_temp (env : Env) (t e : String) :
    ∀ (ss : List String) (acc : List (String × ScriptResult)),
      ((runScriptsAux env t e acc ss).2).filter
        (fun ev => isWriteTemp ev || isRemoveTemp ev) = [] := by
  intro ss
  induction ss with
  | nil => intro acc; simp [runScriptsAux]
  | cons s rest ih =>
    intro acc
    have hrest := ih (dictInsert acc (basename s) (env.run s t e))
    by_cases hrc : (env.run s t e).returncode ≠ 0 <;>
      simp [runScriptsAux, hrc, List.filter_cons, List.filter_append, hrest]

theorem runScriptsAux_snd_temp_run_filter (env : Env) (t e : String) :
    ∀ (ss : List String) (acc : List (String × ScriptResult)),
      ((runScriptsAux env t e acc ss).2).filter
        (fun ev => isWriteTemp ev || isRunScript ev || isRemoveTemp ev)
        = ss.map (fun s => Event.runScript s [t, e]) := by
  intro ss
  induction ss with
  | nil => intro acc; simp [runScriptsAux]
  | cons s rest ih =>
    intro acc
    have hrest := ih (dictInsert acc (basename s) (env.run s t e))
    by_cases hrc : (env.run s t e).returncode ≠ 0 <;>
      simp [runScriptsAux, hrc, List.filter_cons, List.filter_append, hrest]

theorem runScriptsAux_snd_args (env : Env) (t e : String) :
    ∀ (ss : List String) (acc : List (String × ScriptResult)) (s : String)
      (args : List String),
      Event.runScript s args ∈ (runScriptsAux env t e acc ss).2 → args = [t, e] := by
  intro ss
  induction ss with
  | nil => intro acc s args h; simp [runScriptsAux] at h
  | cons x rest ih =>
    intro acc s args h
    rw [runScriptsAux_snd_cons] at h
    simp only [List.mem_cons, List.mem_append] at h
    rcases h with h | h | h
    · exact ((Event.runScript.injEq ..).mp h).2
    · revert h; split <;> intro h <;> simp_all
    · exact ih (dictInsert acc (basename x) (env.run x t e)) s args h

theorem runScriptsAux_logError_mem (env : Env) (t e : String) :
    ∀ (ss : List String) (acc : List (String × ScriptResult)) (s : String),
      s ∈ ss → (env.run s t e).returncode ≠ 0 →
      Event.logError (s ++ " : " ++ toString (env.run s t e).returncode
        ++ " \n" ++ (env.run s t e).stderr) ∈ (runScriptsAux env t e acc ss).2 := by
  intro ss
  induction ss with
  | nil => intro acc s h; simp at h
  | cons x rest ih =>
    intro acc s hmem hrc
    rw [runScriptsAux_snd_cons]
    simp only [List.mem_cons, List.mem_append]
    rcases List.mem_cons.mp hmem with rfl | hmem
    · right; left; simp [hrc]
    · right; right
      exact ih (dictInsert acc (basename x) (env.run x t e)) s hmem hrc

theorem dictInsert_not_mem (d : List (String × ScriptResult)) (k : String)
    (v : ScriptResult) (h : k ∉ d.map Prod.fst) :
    dictInsert d k v = d ++ [(k, v)] := by
  induction d with
  | nil => rfl
  | cons p rest ih =>
    simp only [List.map_cons, List.mem_cons] at h
    push_neg at h
    simp only [dictInsert]
    rw [if_neg (by simpa using fun hq => h.1 hq.symm)]
    simp [ih h.2]

theorem runScriptsAux_fst_nodup (env : Env) (t e : String) :
    ∀ (ss : List String) (acc : List (String × ScriptResult)),
      (∀ s ∈ ss, basename s ∉ acc.map Prod.fst) →
      (ss.map basename).Nodup →
      (runScriptsAux env t e acc ss).1
        = acc ++ ss.map (fun s => (basename s, env.run s t e)) := by
  intro ss
  induction ss with
  | nil => intro acc _ _; simp [runScriptsAux]
  | cons s rest ih =>
    intro acc hacc hnodup
    simp only [List.map_cons, List.nodup_cons] at hnodup
    simp only [runScriptsAux]
    rw [dictInsert_not_mem acc (basename s) (env.run s t e)
      (hacc s (List.mem_cons_self s rest))]
    rw [ih (acc ++ [(basename s, env.run s t e)])
      (by
        intro x hx
        simp only [List.map_append, List.mem_append, List.map_cons, List.map_nil,
          List.mem_singleton]
        push_neg
        refine ⟨hacc x (List.mem_cons_of_mem s hx), ?_⟩
        intro hq
        exact hnodup.1 (hq ▸ List.mem_map_of_mem basename hx))
      hnodup.2]
    simp

theorem runEventsOf_pingEvs (c : Prop) [Decidable c] (msg : String) :
    runEventsOf (if c then [Event.logInfo msg] else []) = [] := by
  split <;> rfl

theorem filter_pingEvs (c : Prop) [Decidable c] (msg : String)
    (p : Event → Bool) (hmsg : p (Event.logInfo msg) = false) :
    (if c then [Event.logInfo msg] else []).filter p = [] := by
  split <;> simp [hmsg]

/-! Stage-reduction lemmas. -/

theorem index_eq_signatureStage_of_ips_off (cfg : Config) (env : Env) (req : Request)
    (hm : req.method = "POST") (hip : cfg.githubIpsOnly = false) :
    index cfg env req = signatureStage cfg env req := by
  simp [index, hm, hip]

theorem signatureStage_eq_processPayload_of_no_secret (cfg : Config) (env : Env)
    (req : Request) (hsec : cfg.enforceSecret = "") :
    signatureStage cfg env req = processPayload cfg env req := by
  simp [signatureStage, checkSignature, hsec]

theorem processPayload_load_fail (cfg : Config) (env : Env) (req : Request)
    (hload : env.loads req.data = none) :
    processPayload cfg env req =
      (.abort 400,
       (if classifyEvent req = "ping" then [Event.logInfo "just a ping"] else [])
         ++ [Event.logException "invalid payload"]) := by
  simp [processPayload, hload]

theorem processPayload_meta_fail (cfg : Config) (env : Env) (req : Request)
    (payload : Json)
    (hload : env.loads req.data = some payload)
    (hmeta : getMeta payload (classifyEvent req) = none) :
    processPayload cfg env req =
      (.abort 400,
       (if classifyEvent req = "ping" then [Event.logInfo "just a ping"] else [])
         ++ [Event.logException "invalid payload"]) := by
  simp [processPayload, hload, hmeta]

theorem processPayload_no_scripts (cfg : Config) (env : Env) (req : Request)
    (payload : Json) (m : Meta)
    (hload : env.loads req.data = some payload)
    (hmeta : getMeta payload (classifyEvent req) = some m)
    (hemp : ((candidateScripts hooksDir m).filter
      (fun s => env.isfile s && env.accessXOK s)).isEmpty = true) :
    processPayload cfg env req =
      (.ok "",
       (if classifyEvent req = "ping" then [Event.logInfo "just a ping"] else [])
         ++ [Event.logWarning ("nothing found for "
               ++ (candidateScripts hooksDir m).headD "")]) := by
  simp [processPayload, hload, hmeta, hemp]

theorem processPayload_scripts_noinfo (cfg : Config) (env : Env) (req : Request)
    (payload : Json) (m : Meta)
    (hload : env.loads req.data = some payload)
    (hmeta : getMeta payload (classifyEvent req) = some m)
    (hne : ((candidateScripts hooksDir m).filter
      (fun s => env.isfile s && env.accessXOK s)).isEmpty = false)
    (hinfo : cfg.returnScriptsInfo = false) :
    processPayload cfg env req =
      (.ok "",
       (if classifyEvent req = "ping" then [Event.logInfo "just a ping"] else [])
         ++ Event.writeTemp env.mkstemp (dumpsJ payload)
           :: (runScriptsAux env env.mkstemp (classifyEvent req) []
                ((candidateScripts hooksDir m).filter
                  (fun s => env.isfile s && env.accessXOK s))).2
           ++ [Event.removeTemp env.mkstemp]) := by
  simp [processPayload, hload, hmeta, hne, hinfo]

theorem processPayload_scripts_info (cfg : Config) (env : Env) (req : Request)
    (payload : Json) (m : Meta)
    (hload : env.loads req.data = some payload)
    (hmeta : getMeta payload (classifyEvent req) = some m)
    (hne : ((candidateScripts hooksDir m).filter
      (fun s => env.isfile s && env.accessXOK s)).isEmpty = false)
    (hinfo : cfg.returnScriptsInfo = true) :
    processPayload cfg env req =
      (.ok (dumpsSortedJ (ranToJson (runScriptsAux env env.mkstemp (classifyEvent req) []
              ((candidateScripts hooksDir m).filter
                (fun s => env.isfile s && env.accessXOK s))).1)),
       (if classifyEvent req = "ping" then [Event.logInfo "just a ping"] else [])
         ++ Event.writeTemp env.mkstemp (dumpsJ payload)
           :: (runScriptsAux env env.mkstemp (classifyEvent req) []
                ((candidateScripts hooksDir m).filter
                  (fun s => env.isfile s && env.accessXOK s))).2
           ++ [Event.removeTemp env.mkstemp]
           ++ [Event.logInfo (dumpsSortedJ (ranToJson (runScriptsAux env env.mkstemp
                 (classifyEvent req) []
                 ((candidateScripts hooksDir m).filter
                   (fun s => env.isfile s && env.accessXOK s))).1))]) := by
  simp [processPayload, hload, hmeta, hne, hinfo]

/-! Concrete fixtures used by the witness theorems: a well-formed payload,
an environment with one executable hook, and request variants. -/

def wPayload : Json :=
  .obj [("repository", .obj [("name", .str "repo")]),
        ("ref", .str "refs/heads/main"),
        ("object_kind", .str "push")]

def wEnv : Env :=
  { whitelist := []
    loads := fun _ => some wPayload
    hmacSha1Hex := fun _ _ => "aabb"
    isfile := fun s => s == "hooks/push-repo-main"
    accessXOK := fun _ => true
    mkstemp := "/tmp/t1"
    run := fun _ _ _ => ⟨1, "out", "err"⟩ }

def wReq : Request :=
  { method := "POST", remoteAddr := 0, xHubSignature := none,
    xGitHubEvent := some "push", xGitlabEvent := none, data := "BODY" }

def wCfg : Config := ⟨false, "", false⟩

def wCfgSec : Config := ⟨false, "sec", false⟩

def wReqSig (h : String) : Request := { wReq with xHubSignature := some h }

def wNet : Network := ⟨3232235520, 24⟩

def wCfgIps : Config := ⟨true, "", false⟩

def wEnvIps : Env := { wEnv with whitelist := [wNet] }

def wReqIp (a : Nat) : Request := { wReq with remoteAddr := a }

/-! The claims. -/

/-- C1: if a shared secret is configured (non-empty), the handler parses
the signature header as algorithm=hexdigest, responds 501 when the
algorithm part is not sha1, computes HMAC-SHA1 over the exact raw request
body bytes with the configured secret, and responds 403 unless the
computed hex digest equals the provided digest (the constant-time
comparison hmac.compare_digest, modelled by its value, string equality);
on a match, processing continues past validation into the payload
pipeline. -/
theorem C1_signature_enforcement (cfg : Config) (env : Env) (req : Request)
    (header alg dig : String)
    (hm : req.method = "POST") (hip : cfg.githubIpsOnly = false)
    (hsec : cfg.enforceSecret ≠ "")
    (hh : req.xHubSignature = some header)
    (hsplit : pySplit header '=' = [alg, dig]) :
    (alg ≠ "sha1" → (index cfg env req).1 = .abort 501) ∧
    (alg = "sha1" → env.hmacSha1Hex cfg.enforceSecret req.data ≠ dig →
      (index cfg env req).1 = .abort 403) ∧
    (alg = "sha1" → env.hmacSha1Hex cfg.enforceSecret req.data = dig →
      index cfg env req = processPayload cfg env req) := by
  have hidx := index_eq_signatureStage_of_ips_off cfg env req hm hip
  refine ⟨?_, ?_, ?_⟩
  · intro halg
    rw [hidx]
    simp [signatureStage, checkSignature, hsec, hh, hsplit, halg]
  · intro halg hne
    rw [hidx]
    simp [signatureStage, checkSignature, hsec, hh, hsplit, halg, compareDigest, hne]
  · intro halg heq
    rw [hidx]
    simp [signatureStage, checkSignature, hsec, hh, hsplit, halg, compareDigest, heq]

theorem C1_signature_enforcement_witness :
    (index wCfgSec wEnv (wReqSig "md5=aabb")).1 = .abort 501 ∧
    (index wCfgSec wEnv (wReqSig "sha1=bad")).1 = .abort 403 ∧
    index wCfgSec wEnv (wReqSig "sha1=aabb") = processPayload wCfgSec wEnv (wReqSig "sha1=aabb") :=
  ⟨(C1_signature_enforcement wCfgSec wEnv (wReqSig "md5=aabb") "md5=aabb" "md5" "aabb"
      rfl rfl (by decide) rfl (by decide)).1 (by decide),
   ((C1_signature_enforcement wCfgSec wEnv (wReqSig "sha1=bad") "sha1=bad" "sha1" "bad"
      rfl rfl (by decide) rfl (by decide)).2.1 rfl (by decide)),
   ((C1_signature_enforcement wCfgSec wEnv (wReqSig "sha1=aabb") "sha1=aabb" "sha1" "aabb"
      rfl rfl (by decide) rfl (by decide)).2.2 rfl rfl)⟩

/-- C2: with GITHUB_IPS_ONLY enabled, a request whose remote address lies
inside none of the fetched allowlisted networks is answered 403 whatever
its payload; an address inside at least one network continues to the
signature check. -/
theorem C2_ip_allowlist (cfg : Config) (env : Env) (req : Request)
    (hm : req.method = "POST") (hon : cfg.githubIpsOnly = true) :
    (ipAllowed env.whitelist req.remoteAddr = false → (index cfg env req).1 = .abort 403) ∧
    (ipAllowed env.whitelist req.remoteAddr = true →
      index cfg env req = signatureStage cfg env req) := by
  constructor
  · intro hout; simp [index, hm, hon, hout]
  · intro hin; simp [index, hm, hin]

theorem C2_ip_allowlist_witness :
    (index wCfgIps wEnvIps (wReqIp 1)).1 = .abort 403 ∧
    index wCfgIps wEnvIps (wReqIp 3232235521) =
      signatureStage wCfgIps wEnvIps (wReqIp 3232235521) :=
  ⟨(C2_ip_allowlist wCfgIps wEnvIps (wReqIp 1) rfl rfl).1 (by decide),
   (C2_ip_allowlist wCfgIps wEnvIps (wReqIp 3232235521) rfl rfl).2 (by decide)⟩

/-- C10: when a secret is configured and the request carries no signature
header at all, the handler raises an uncaught exception (attribute access
on the missing header value before the split on the equals sign) instead
of returning any HTTP status. -/
theorem C10_missing_signature_header_crash (cfg : Config) (env : Env) (req : Request)
    (hm : req.method = "POST") (hip : cfg.githubIpsOnly = false)
    (hsec : cfg.enforceSecret ≠ "") (hh : req.xHubSignature = none) :
    (index cfg env req).1 = .crash "AttributeError: NoneType has no attribute split" ∧
    ∀ n : Nat, (index cfg env req).1 ≠ .abort n := by
  have hidx := index_eq_signatureStage_of_ips_off cfg env req hm hip
  have h1 : (index cfg env req).1
      = .crash "AttributeError: NoneType has no attribute split" := by
    rw [hidx]
    simp [signatureStage, checkSignature, hsec, hh]
  refine ⟨h1, ?_⟩
  intro n
  rw [h1]
  simp

theorem C10_missing_signature_header_crash_witness :
    (index wCfgSec wEnv wReq).1 = .crash "AttributeError: NoneType has no attribute split" ∧
    ∀ n : Nat, (index wCfgSec wEnv wReq).1 ≠ .abort n :=
  C10_missing_signature_header_crash wCfgSec wEnv wReq rfl rfl (by decide) rfl

/-- C7: a request body that does not parse as JSON, or whose parsed payload
is missing the repository name, the ref, or any event field, is answered
400, and the exception is logged; the third conjunct checks that each of
the listed missing pieces indeed makes the meta extraction raise. -/
theorem C7_bad_payload_400 (cfg : Config) (env : Env) (req : Request)
    (hm : req.method = "POST") (hip : cfg.githubIpsOnly = false)
    (hsec : cfg.enforceSecret = "") :
    (env.loads req.data = none →
      (index cfg env req).1 = .abort 400 ∧
      Event.logException "invalid payload" ∈ (index cfg env req).2) ∧
    (∀ payload, env.loads req.data = some payload →
      getMeta payload (classifyEvent req) = none →
      (index cfg env req).1 = .abort 400 ∧
      Event.logException "invalid payload" ∈ (index cfg env req).2) ∧
    (∀ payload, env.loads req.data = some payload →
      (payload.lookup "repository" = none ∨
       (∃ repo, payload.lookup "repository" = some repo ∧ repo.lookup "name" = none) ∨
       payload.lookup "ref" = none ∨
       (classifyEvent req = "" ∧ payload.lookup "object_kind" = none)) →
      getMeta payload (classifyEvent req) = none) := by
  have hidx : index cfg env req = processPayload cfg env req := by
    rw [index_eq_signatureStage_of_ips_off cfg env req hm hip,
        signatureStage_eq_processPayload_of_no_secret cfg env req hsec]
  refine ⟨?_, ?_, ?_⟩
  · intro hload
    rw [hidx, processPayload_load_fail cfg env req hload]
    constructor
    · rfl
    · simp
  · intro payload hload hmeta
    rw [hidx, processPayload_meta_fail cfg env req payload hload hmeta]
    constructor
    · rfl
    · simp
  · intro payload hload hbad
    rcases hbad with h | ⟨repo, hr, hn⟩ | h | ⟨he, ho⟩
    · simp [getMeta, h]
    · simp [getMeta, hr, hn]
    · cases h1 : payload.lookup "repository" with
      | none => simp [getMeta, h1]
      | some repo =>
        cases h2 : repo.lookup "name" with
        | none => simp [getMeta, h1, h2]
        | some nameJ => simp [getMeta, h1, h2, h]
    · cases h1 : payload.lookup "repository" with
      | none => simp [getMeta, h1]
      | some repo =>
        cases h2 : repo.lookup "name" with
        | none => simp [getMeta, h1, h2]
        | some nameJ =>
          cases h3 : payload.lookup "ref" with
          | none => simp [getMeta, h1, h2, h3]
          | some refJ =>
            cases h4 : refJ.asString with
            | none => simp [getMeta, h1, h2, h3, h4]
            | some refStr =>
              cases h5 : (pySplit refStr '/')[2]? with
              | none => simp [getMeta, h1, h2, h3, h4, h5]
              | some br => simp [getMeta, h1, h2, h3, h4, h5, he, ho]

theorem C7_bad_payload_400_witness :
    ((index wCfg { wEnv with loads := fun _ => none } wReq).1 = .abort 400 ∧
      Event.logException "invalid payload"
        ∈ (index wCfg { wEnv with loads := fun _ => none } wReq).2) ∧
    ((index wCfg { wEnv with loads := fun _ => some (.obj []) } wReq).1 = .abort 400 ∧
      Event.logException "invalid payload"
        ∈ (index wCfg { wEnv with loads := fun _ => some (.obj []) } wReq).2) ∧
    getMeta (.obj []) (classifyEvent wReq) = none :=
  ⟨(C7_bad_payload_400 wCfg { wEnv with loads := fun _ => none } wReq rfl rfl rfl).1 rfl,
   (C7_bad_payload_400 wCfg { wEnv with loads := fun _ => some (.obj []) } wReq
      rfl rfl rfl).2.1 (.obj []) rfl (by decide),
   (C7_bad_payload_400 wCfg { wEnv with loads := fun _ => some (.obj []) } wReq
      rfl rfl rfl).2.2 (.obj []) rfl (Or.inl rfl)⟩

/-- C8: a classified event equal to the literal ping only logs an
informational line and does not short-circuit: a ping with an unparseable
payload still yields 400, and a ping whose meta resolves to executable
scripts still runs exactly the qualifying candidates. -/
theorem C8_ping_passthrough (cfg : Config) (env : Env) (req : Request)
    (hm : req.method = "POST") (hip : cfg.githubIpsOnly = false)
    (hsec : cfg.enforceSecret = "")
    (hping : classifyEvent req = "ping") :
    Event.logInfo "just a ping" ∈ (index cfg env req).2 ∧
    (env.loads req.data = none → (index cfg env req).1 = .abort 400) ∧
    (∀ payload m, env.loads req.data = some payload →
      getMeta payload (classifyEvent req) = some m →
      scriptsRun (index cfg env req).2
        = (candidateScripts hooksDir m).filter (fun s => env.isfile s && env.accessXOK s)) := by
  have hidx : index cfg env req = processPayload cfg env req := by
    rw [index_eq_signatureStage_of_ips_off cfg env req hm hip,
        signatureStage_eq_processPayload_of_no_secret cfg env req hsec]
  rw [hidx]
  refine ⟨?_, ?_, ?_⟩
  · cases hl : env.loads req.data with
    | none => rw [processPayload_load_fail cfg env req hl]; simp [hping]
    | some payload =>
      cases hg : getMeta payload (classifyEvent req) with
      | none => rw [processPayload_meta_fail cfg env req payload hl hg]; simp [hping]
      | some m =>
        cases hemp : ((candidateScripts hooksDir m).filter
            (fun s => env.isfile s && env.accessXOK s)).isEmpty with
        | true =>
          rw [processPayload_no_scripts cfg env req payload m hl hg hemp]
          simp [hping]
        | false =>
          cases hinfo : cfg.returnScriptsInfo with
          | false =>
            rw [processPayload_scripts_noinfo cfg env req payload m hl hg hemp hinfo]
            simp [hping]
          | true =>
            rw [processPayload_scripts_info cfg env req payload m hl hg hemp hinfo]
            simp [hping]
  · intro hl
    rw [processPayload_load_fail cfg env req hl]
  · intro payload m hl hg
    cases hemp : ((candidateScripts hooksDir m).filter
        (fun s => env.isfile s && env.accessXOK s)).isEmpty with
    | true =>
      rw [processPayload_no_scripts cfg env req payload m hl hg hemp]
      rw [List.isEmpty_iff] at hemp
      rw [hemp]
      simp [scriptsRun, hping]
    | false =>
      cases hinfo : cfg.returnScriptsInfo with
      | false =>
        rw [processPayload_scripts_noinfo cfg env req payload m hl hg hemp hinfo]
        simp [scriptsRun, hping, map_fst_runEvents]
      | true =>
        rw [processPayload_scripts_info cfg env req payload m hl hg hemp hinfo]
        simp [scriptsRun, hping, map_fst_runEvents]

theorem C8_ping_passthrough_witness :
    Event.logInfo "just a ping"
      ∈ (index wCfg { wEnv with isfile := fun s => s == "hooks/ping-repo-main" }
          { wReq with xGitHubEvent := some "ping" }).2 ∧
    scriptsRun (index wCfg { wEnv with isfile := fun s => s == "hooks/ping-repo-main" }
        { wReq with xGitHubEvent := some "ping" }).2 = ["hooks/ping-repo-main"] ∧
    (index wCfg { wEnv with loads := fun _ => none }
        { wReq with xGitHubEvent := some "ping" }).1 = .abort 400 := by
  refine ⟨(C8_ping_passthrough wCfg { wEnv with isfile := fun s => s == "hooks/ping-repo-main" }
      { wReq with xGitHubEvent := some "ping" } rfl rfl rfl rfl).1, ?_, ?_⟩
  · have := (C8_ping_passthrough wCfg
      { wEnv with isfile := fun s => s == "hooks/ping-repo-main" }
      { wReq with xGitHubEvent := some "ping" } rfl rfl rfl rfl).2.2
      wPayload ⟨"repo", "main", "ping"⟩ rfl (by decide)
    rw [this]
    decide
  · exact (C8_ping_passthrough wCfg { wEnv with loads := fun _ => none }
      { wReq with xGitHubEvent := some "ping" } rfl rfl rfl rfl).2.1 rfl

/-- C9: the derived branch is element 2 (zero-based) of the payload's ref
string split on the slash; for refs with fewer than three slash-separated
segments the extraction raises and the request is answered 400. -/
theorem C9_branch_derivation (cfg : Config) (env : Env) (req : Request)
    (payload : Json) (refStr : String)
    (hm : req.method = "POST") (hip : cfg.githubIpsOnly = false)
    (hsec : cfg.enforceSecret = "")
    (hload : env.loads req.data = some payload)
    (href : payload.lookup "ref" = some (Json.str refStr)) :
    (∀ m, getMeta payload (classifyEvent req) = some m →
      (pySplit refStr '/')[2]? = some m.branch) ∧
    ((pySplit refStr '/')[2]? = none →
      getMeta payload (classifyEvent req) = none ∧
      (index cfg env req).1 = .abort 400) := by
  have hidx : index cfg env req = processPayload cfg env req := by
    rw [index_eq_signatureStage_of_ips_off cfg env req hm hip,
        signatureStage_eq_processPayload_of_no_secret cfg env req hsec]
  have hnone : (pySplit refStr '/')[2]? = none →
      getMeta payload (classifyEvent req) = none := by
    intro h5
    cases h1 : payload.lookup "repository" with
    | none => simp [getMeta, h1]
    | some repo =>
      cases h2 : repo.lookup "name" with
      | none => simp [getMeta, h1, h2]
      | some nameJ => simp [getMeta, h1, h2, href, Json.asString, h5]
  refine ⟨?_, ?_⟩
  · intro m hmeta
    cases h1 : payload.lookup "repository" with
    | none => simp [getMeta, h1] at hmeta
    | some repo =>
      cases h2 : repo.lookup "name" with
      | none => simp [getMeta, h1, h2] at hmeta
      | some nameJ =>
        cases h5 : (pySplit refStr '/')[2]? with
        | none =>
          rw [hnone h5] at hmeta
          exact absurd hmeta (by simp)
        | some br =>
          simp only [getMeta, h1, h2, href, Json.asString, h5, Option.bind_eq_bind,
            Option.some_bind] at hmeta
          cases he : classifyEvent req with
          | _ =>
            rw [he] at hmeta
            revert hmeta
            split <;>
              · intro hmeta
                first
                | (cases hok : payload.lookup "object_kind" with
                   | none => simp [hok] at hmeta
                   | some ok =>
                     simp [hok] at hmeta
                     simp [← hmeta])
                | (simp at hmeta; simp [← hmeta])
  · intro h5
    refine ⟨hnone h5, ?_⟩
    rw [hidx, processPayload_meta_fail cfg env req payload hload (hnone h5)]

theorem C9_branch_derivation_witness :
    (pySplit "refs/heads/main" '/')[2]? = some "main" ∧
    getMeta wPayload (classifyEvent wReq) = some ⟨"repo", "main", "push"⟩ ∧
    (index wCfg { wEnv with loads := fun _ => some (.obj [("repository",
        .obj [("name", .str "repo")]), ("ref", .str "nope")]) } wReq).1 = .abort 400 := by
  refine ⟨?_, by decide, ?_⟩
  · have := (C9_branch_derivation wCfg wEnv wReq wPayload "refs/heads/main"
      rfl rfl rfl rfl rfl).1 ⟨"repo", "main", "push"⟩ (by decide)
    simpa using this
  · exact ((C9_branch_derivation wCfg { wEnv with loads := fun _ => some (.obj [("repository",
        .obj [("name", .str "repo")]), ("ref", .str "nope")]) } wReq
      (.obj [("repository", .obj [("name", .str "repo")]), ("ref", .str "nope")])
      "nope" rfl rfl rfl rfl rfl).2 (by decide)).2

/-- C3: given derived meta, the resolver builds exactly the four candidate
paths event-name-branch, event-name, event, all inside the hooks
directory, in that order; the scripts executed are exactly the candidates
that pass the isfile-and-executable filter (an any-of-four fan-out); if
none qualifies, the response is 200 with an empty body and no temp file
write appears in the trace. -/
theorem C3_candidate_resolution (cfg : Config) (env : Env) (req : Request)
    (payload : Json) (m : Meta)
    (hm : req.method = "POST") (hip : cfg.githubIpsOnly = false)
    (hsec : cfg.enforceSecret = "")
    (hload : env.loads req.data = some payload)
    (hmeta : getMeta payload (classifyEvent req) = some m) :
    candidateScripts hooksDir m =
      [ joinPath hooksDir (m.event ++ "-" ++ m.name ++ "-" ++ m.branch),
        joinPath hooksDir (m.event ++ "-" ++ m.name),
        joinPath hooksDir m.event,
        joinPath hooksDir "all" ] ∧
    scriptsRun (index cfg env req).2
      = (candidateScripts hooksDir m).filter (fun s => env.isfile s && env.accessXOK s) ∧
    ((candidateScripts hooksDir m).filter (fun s => env.isfile s && env.accessXOK s) = [] →
      (index cfg env req).1 = .ok "" ∧
      (index cfg env req).2.filter (fun ev => isWriteTemp ev) = []) := by
  have hidx : index cfg env req = processPayload cfg env req := by
    rw [index_eq_signatureStage_of_ips_off cfg env req hm hip,
        signatureStage_eq_processPayload_of_no_secret cfg env req hsec]
  rw [hidx]
  refine ⟨rfl, ?_, ?_⟩
  · cases hemp : ((candidateScripts hooksDir m).filter
        (fun s => env.isfile s && env.accessXOK s)).isEmpty with
    | true =>
      rw [processPayload_no_scripts cfg env req payload m hload hmeta hemp]
      rw [List.isEmpty_iff] at hemp
      rw [hemp]
      simp [scriptsRun, runEventsOf_pingEvs]
    | false =>
      cases hinfo : cfg.returnScriptsInfo with
      | false =>
        rw [processPayload_scripts_noinfo cfg env req payload m hload hmeta hemp hinfo]
        simp [scriptsRun, runEventsOf_pingEvs, map_fst_runEvents]
      | true =>
        rw [processPayload_scripts_info cfg env req payload m hload hmeta hemp hinfo]
        simp [scriptsRun, runEventsOf_pingEvs, map_fst_runEvents]
  · intro hempty
    have hemp : ((candidateScripts hooksDir m).filter
        (fun s => env.isfile s && env.accessXOK s)).isEmpty = true := by
      rw [hempty]; rfl
    rw [processPayload_no_scripts cfg env req payload m hload hmeta hemp]
    exact ⟨rfl, by simp [filter_pingEvs]⟩

theorem C3_candidate_resolution_witness :
    candidateScripts hooksDir ⟨"repo", "main", "push"⟩ =
      ["hooks/push-repo-main", "hooks/push-repo", "hooks/push", "hooks/all"] ∧
    scriptsRun (index wCfg wEnv wReq).2 = ["hooks/push-repo-main"] ∧
    ((index wCfg { wEnv with isfile := fun _ => false } wReq).1 = .ok "" ∧
      (index wCfg { wEnv with isfile := fun _ => false } wReq).2.filter
        (fun ev => isWriteTemp ev) = []) := by
  refine ⟨by decide, ?_, ?_⟩
  · have := (C3_candidate_resolution wCfg wEnv wReq wPayload ⟨"repo", "main", "push"⟩
      rfl rfl rfl rfl (by decide)).2.1
    rw [this]
    decide
  · exact (C3_candidate_resolution wCfg { wEnv with isfile := fun _ => false } wReq
      wPayload ⟨"repo", "main", "push"⟩ rfl rfl rfl rfl (by decide)).2.2 (by decide)

/-- C4: whenever at least one runnable script is selected, the trace holds
exactly one temp-file write, holding the serialized JSON payload, before
every script invocation, and exactly one temp-file removal after all of
them, whatever the scripts' exit codes; with no runnable scripts the trace
holds no temp-file write or removal at all. -/
theorem C4_tempfile_lifecycle (cfg : Config) (env : Env) (req : Request)
    (payload : Json) (m : Meta)
    (hm : req.method = "POST") (hip : cfg.githubIpsOnly = false)
    (hsec : cfg.enforceSecret = "")
    (hload : env.loads req.data = some payload)
    (hmeta : getMeta payload (classifyEvent req) = some m) :
    ((candidateScripts hooksDir m).filter (fun s => env.isfile s && env.accessXOK s) = [] →
      (index cfg env req).2.filter (fun ev => isWriteTemp ev || isRemoveTemp ev) = []) ∧
    ((candidateScripts hooksDir m).filter (fun s => env.isfile s && env.accessXOK s) ≠ [] →
      (index cfg env req).2.filter
          (fun ev => isWriteTemp ev || isRunScript ev || isRemoveTemp ev)
        = Event.writeTemp env.mkstemp (dumpsJ payload)
            :: ((candidateScripts hooksDir m).filter
                (fun s => env.isfile s && env.accessXOK s)).map
                  (fun s => Event.runScript s [env.mkstemp, classifyEvent req])
            ++ [Event.removeTemp env.mkstemp]) := by
  have hidx : index cfg env req = processPayload cfg env req := by
    rw [index_eq_signatureStage_of_ips_off cfg env req hm hip,
        signatureStage_eq_processPayload_of_no_secret cfg env req hsec]
  rw [hidx]
  constructor
  · intro hempty
    have hemp : ((candidateScripts hooksDir m).filter
        (fun s => env.isfile s && env.accessXOK s)).isEmpty = true := by
      rw [hempty]; rfl
    rw [processPayload_no_scripts cfg env req payload m hload hmeta hemp]
    simp [filter_pingEvs]
  · intro hne
    have hemp : ((candidateScripts hooksDir m).filter
        (fun s => env.isfile s && env.accessXOK s)).isEmpty = false := by
      cases hlist : (candidateScripts hooksDir m).filter
          (fun s => env.isfile s && env.accessXOK s) with
      | nil => exact absurd hlist hne
      | cons a l => rfl
    cases hinfo : cfg.returnScriptsInfo with
    | false =>
      rw [processPayload_scripts_noinfo cfg env req payload m hload hmeta hemp hinfo]
      simp [filter_pingEvs, List.filter_append, runScriptsAux_snd_temp_run_filter]
    | true =>
      rw [processPayload_scripts_info cfg env req payload m hload hmeta hemp hinfo]
      simp [filter_pingEvs, List.filter_append, runScriptsAux_snd_temp_run_filter]

theorem C4_tempfile_lifecycle_witness :
    ((index wCfg { wEnv with isfile := fun _ => false } wReq).2.filter
      (fun ev => isWriteTemp ev || isRemoveTemp ev) = []) ∧
    ((index wCfg wEnv wReq).2.filter
        (fun ev => isWriteTemp ev || isRunScript ev || isRemoveTemp ev)
      = Event.writeTemp "/tmp/t1" (dumpsJ wPayload)
          :: [Event.runScript "hooks/push-repo-main" ["/tmp/t1", "push"]]
          ++ [Event.removeTemp "/tmp/t1"]) := by
  constructor
  · exact (C4_tempfile_lifecycle wCfg { wEnv with isfile := fun _ => false } wReq
      wPayload ⟨"repo", "main", "push"⟩ rfl rfl rfl rfl (by decide)).1 (by decide)
  · have := (C4_tempfile_lifecycle wCfg wEnv wReq wPayload ⟨"repo", "main", "push"⟩
      rfl rfl rfl rfl (by decide)).2 (by decide)
    rw [this]
    decide

/-- C5 (counterexample): with both event headers absent the classified
event is empty and the meta event falls back to the payload's object_kind
("push" here), yet the executed script receives the empty string as its
second argument, not "push": the loop passes the header-classified event
variable to the child process, not the meta-derived one. -/
theorem C5_counterexample :
    getMeta wPayload (classifyEvent { wReq with xGitHubEvent := none })
      = some ⟨"repo", "main", "push"⟩ ∧
    runEventsOf (index wCfg wEnv { wReq with xGitHubEvent := none }).2
      = [("hooks/push-repo-main", ["/tmp/t1", ""])] ∧
    ("" : String) ≠ "push" := by
  refine ⟨by decide, by decide, by decide⟩

/-- C5 (amended): every hook script invocation in the trace carries exactly
two positional arguments, the temporary payload file path and the
header-classified event string — which is the empty string, not the
object_kind fallback, when no event header is present. -/
theorem C5_amended_script_arguments (cfg : Config) (env : Env) (req : Request)
    (s : String) (args : List String)
    (hmem : Event.runScript s args ∈ (index cfg env req).2) :
    args = [env.mkstemp, classifyEvent req] := by
  have hpp : ∀ hmem2 : Event.runScript s args ∈ (processPayload cfg env req).2,
      args = [env.mkstemp, classifyEvent req] := by
    intro hmem2
    cases hl : env.loads req.data with
    | none =>
      rw [processPayload_load_fail cfg env req hl] at hmem2
      revert hmem2
      split <;> simp
    | some payload =>
      cases hg : getMeta payload (classifyEvent req) with
      | none =>
        rw [processPayload_meta_fail cfg env req payload hl hg] at hmem2
        revert hmem2
        split <;> simp
      | some m =>
        cases hemp : ((candidateScripts hooksDir m).filter
            (fun s => env.isfile s && env.accessXOK s)).isEmpty with
        | true =>
          rw [processPayload_no_scripts cfg env req payload m hl hg hemp] at hmem2
          revert hmem2
          split <;> simp
        | false =>
          cases hinfo : cfg.returnScriptsInfo with
          | false =>
            rw [processPayload_scripts_noinfo cfg env req payload m hl hg hemp hinfo]
              at hmem2
            have hE : Event.runScript s args
                ∈ (runScriptsAux env env.mkstemp (classifyEvent req) []
                    ((candidateScripts hooksDir m).filter
                      (fun s => env.isfile s && env.accessXOK s))).2 := by
              revert hmem2
              split <;> simp
            exact runScriptsAux_snd_args env env.mkstemp (classifyEvent req) _ _ s args hE
          | true =>
            rw [processPayload_scripts_info cfg env req payload m hl hg hemp hinfo]
              at hmem2
            have hE : Event.runScript s args
                ∈ (runScriptsAux env env.mkstemp (classifyEvent req) []
                    ((candidateScripts hooksDir m).filter
                      (fun s => env.isfile s && env.accessXOK s))).2 := by
              revert hmem2
              split <;> simp
            exact runScriptsAux_snd_args env env.mkstemp (classifyEvent req) _ _ s args hE
  simp only [index] at hmem
  revert hmem
  split
  · simp
  · split
    · simp
    · simp only [signatureStage]
      cases hcs : checkSignature cfg env req with
      | some r => simp
      | none => exact hpp

theorem C5_amended_script_arguments_witness :
    (["/tmp/t1", ""] : List String)
      = [wEnv.mkstemp, classifyEvent { wReq with xGitHubEvent := none }] :=
  C5_amended_script_arguments wCfg wEnv { wReq with xGitHubEvent := none }
    "hooks/push-repo-main" ["/tmp/t1", ""] (by decide)

/-- C6: scripts run strictly sequentially in resolution order and a
non-zero exit aborts nothing: the executed scripts are exactly the
selected ones in order whatever the exit codes, a failing script
contributes a logged error line, the response stays a 200, and its body
is the result mapping (each executed script's basename with returncode,
stdout and stderr) serialized with sorted keys when detailed info is
enabled, and empty otherwise. (The basenames-nodup hypothesis rules out
the degenerate overlap of two candidates naming the same dict key.) -/
theorem C6_sequential_execution (cfg : Config) (env : Env) (req : Request)
    (payload : Json) (m : Meta)
    (hm : req.method = "POST") (hip : cfg.githubIpsOnly = false)
    (hsec : cfg.enforceSecret = "")
    (hload : env.loads req.data = some payload)
    (hmeta : getMeta payload (classifyEvent req) = some m)
    (hne : (candidateScripts hooksDir m).filter (fun s => env.isfile s && env.accessXOK s) ≠ [])
    (hnodup : (((candidateScripts hooksDir m).filter
      (fun s => env.isfile s && env.accessXOK s)).map basename).Nodup) :
    scriptsRun (index cfg env req).2
      = (candidateScripts hooksDir m).filter (fun s => env.isfile s && env.accessXOK s) ∧
    (∀ s ∈ (candidateScripts hooksDir m).filter (fun s => env.isfile s && env.accessXOK s),
      (env.run s env.mkstemp (classifyEvent req)).returncode ≠ 0 →
      Event.logError (s ++ " : " ++ toString (env.run s env.mkstemp (classifyEvent req)).returncode
        ++ " \n" ++ (env.run s env.mkstemp (classifyEvent req)).stderr)
        ∈ (index cfg env req).2) ∧
    (index cfg env req).1 =
      .ok (if cfg.returnScriptsInfo
           then dumpsSortedJ (ranToJson (((candidateScripts hooksDir m).filter
                  (fun s => env.isfile s && env.accessXOK s)).map
                  (fun s => (basename s, env.run s env.mkstemp (classifyEvent req)))))
           else "") := by
  have hidx : index cfg env req = processPayload cfg env req := by
    rw [index_eq_signatureStage_of_ips_off cfg env req hm hip,
        signatureStage_eq_processPayload_of_no_secret cfg env req hsec]
  have hemp : ((candidateScripts hooksDir m).filter
      (fun s => env.isfile s && env.accessXOK s)).isEmpty = false := by
    cases hlist : (candidateScripts hooksDir m).filter
        (fun s => env.isfile s && env.accessXOK s) with
    | nil => exact absurd hlist hne
    | cons a l => rfl
  have hran : (runScriptsAux env env.mkstemp (classifyEvent req) []
      ((candidateScripts hooksDir m).filter (fun s => env.isfile s && env.accessXOK s))).1
      = ((candidateScripts hooksDir m).filter
          (fun s => env.isfile s && env.accessXOK s)).map
          (fun s => (basename s, env.run s env.mkstemp (classifyEvent req))) := by
    have := runScriptsAux_fst_nodup env env.mkstemp (classifyEvent req)
      ((candidateScripts hooksDir m).filter (fun s => env.isfile s && env.accessXOK s)) []
      (by intro s _; simp) hnodup
    simpa using this
  rw [hidx]
  refine ⟨?_, ?_, ?_⟩
  · cases hinfo : cfg.returnScriptsInfo with
    | false =>
      rw [processPayload_scripts_noinfo cfg env req payload m hload hmeta hemp hinfo]
      simp [scriptsRun, runEventsOf_pingEvs, map_fst_runEvents]
    | true =>
      rw [processPayload_scripts_info cfg env req payload m hload hmeta hemp hinfo]
      simp [scriptsRun, runEventsOf_pingEvs, map_fst_runEvents]
  · intro s hs hrc
    have hml := runScriptsAux_logError_mem env env.mkstemp (classifyEvent req)
      ((candidateScripts hooksDir m).filter (fun s => env.isfile s && env.accessXOK s)) []
      s hs hrc
    cases hinfo : cfg.returnScriptsInfo with
    | false =>
      rw [processPayload_scripts_noinfo cfg env req payload m hload hmeta hemp hinfo]
      simp only [List.mem_append, List.mem_cons]
      tauto
    | true =>
      rw [processPayload_scripts_info cfg env req payload m hload hmeta hemp hinfo]
      simp only [List.mem_append, List.mem_cons]
      tauto
  · cases hinfo : cfg.returnScriptsInfo with
    | false =>
      rw [processPayload_scripts_noinfo cfg env req payload m hload hmeta hemp hinfo]
      simp [hinfo]
    | true =>
      rw [processPayload_scripts_info cfg env req payload m hload hmeta hemp hinfo]
      simp [hinfo, hran]

def wEnvTwo : Env :=
  { wEnv with
    isfile := fun s => s == "hooks/push-repo-main" || s == "hooks/all"
    run := fun s _ _ => if s == "hooks/all" then ⟨1, "", "boom"⟩ else ⟨0, "ok", ""⟩ }

def wCfgInfo : Config := ⟨false, "", true⟩

theorem C6_sequential_execution_witness :
    scriptsRun (index wCfgInfo wEnvTwo wReq).2 = ["hooks/push-repo-main", "hooks/all"] ∧
    Event.logError ("hooks/all : 1 \n" ++ "boom") ∈ (index wCfgInfo wEnvTwo wReq).2 ∧
    (index wCfgInfo wEnvTwo wReq).1 =
      .ok (dumpsSortedJ (ranToJson
        [("push-repo-main", ⟨0, "ok", ""⟩), ("all", ⟨1, "", "boom"⟩)])) := by
  have h := C6_sequential_execution wCfgInfo wEnvTwo wReq wPayload ⟨"repo", "main", "push"⟩
    rfl rfl rfl rfl (by decide) (by decide) (by decide)
  refine ⟨?_, ?_, ?_⟩
  · rw [h.1]; decide
  · have := h.2.1 "hooks/all" (by decide) (by decide)
    simpa using this
  · rw [h.2.2]; decide

end Webhooks
